import Mathlib

/-!
Shallow embedding of the RAG pipeline implemented in `src/main.py` of the
justRAGit repository, and verification of the frozen claims about it.

Conventions of the embedding:
* Python floats (the certainty scores) are modelled as rationals `ℚ`; the code
  only compares scores, never does arithmetic on them, so the order structure
  is all that matters.
* A Python function that can raise an exception is modelled with `Except`,
  the error value naming the offending key (as a caught `KeyError` does).
* A Python function that falls off its end returns `None`; this is modelled
  with `Option`, the return being `none`.
* The external collaborators (PDF loader, text splitter, embedding HTTP
  service, the Weaviate client, the chat model) appear as explicit inputs:
  parsed responses, chunk-group lists, and oracle functions.
-/

namespace JustRAGit

/-- Line 19 of `main.py`: the global collection name constant. -/
def collection_name : String := "Article"

/-! ## Re-ranker: the inline sorting step of `queries` (lines 155-157) -/

/-- A retrieved candidate as built on line 150: the chunk text paired with its
certainty score. -/
abbrev Candidate := String × ℚ

/-- The ordering used by `sorted(results_with_scores, key=lambda x: x[1],
reverse=True)` on line 155: `a` may come before `b` exactly when the score of
`a` is at least the score of `b`. -/
def scoreGE (a b : Candidate) : Prop := b.2 ≤ a.2

instance : DecidableRel scoreGE :=
  fun a b => inferInstanceAs (Decidable (b.2 ≤ a.2))

instance : IsTotal Candidate scoreGE := ⟨fun a b => le_total b.2 a.2⟩

instance : IsTrans Candidate scoreGE := ⟨fun _ _ _ hab hbc => le_trans hbc hab⟩

/-- Line 155: `sorted_results = sorted(results_with_scores, key=lambda x: x[1],
reverse=True)`. The Python builtin `sorted` is a stable sort, and with `reverse=True`
entries with equal keys still keep their original order, so it is exactly the
stable descending insertion sort. -/
def sorted_results (cs : List Candidate) : List Candidate :=
  cs.insertionSort scoreGE

/-- Lines 155-157 of `queries`: stable-sort by score descending, slice off the
first `top_p` entries, and join their texts with a blank-line separator. -/
def rerank (cs : List Candidate) (top_p : ℕ) : String :=
  String.intercalate "\n\n" (((sorted_results cs).take top_p).map Prod.fst)

/-! ## The parsed vector-store query response (consumed on lines 141-153) -/

/-- The value found under the `additional` key of a hit, when present: a JSON
object that may carry a `certainty` field (line 149). -/
structure AdditionalInfo where
  certainty? : Option ℚ
deriving DecidableEq

/-- One entry of the hits list, reached through the `data`, `Get` and
collection-name keys of the response: the stored chunk text under the `chunk`
key (line 147, a `KeyError` when absent) and the optional additional section
(line 149). -/
structure Hit where
  chunk? : Option String
  additional? : Option AdditionalInfo
deriving DecidableEq

/-- The `Get` section of the response: a JSON object keyed by class name. -/
structure GetSection where
  classes : List (String × List Hit)
deriving DecidableEq

/-- The `data` section of the response envelope. -/
structure DataSection where
  get? : Option GetSection
deriving DecidableEq

/-- The whole response of the near-vector query issued on lines 141-142. -/
structure QueryResponse where
  data? : Option DataSection
deriving DecidableEq

/-- Line 146: the three-key lookup of the hits list through the `data`, `Get`
and collection-name keys of the response; each missing key raises a `KeyError`
naming that key, modelled as the `Except.error` value. -/
def extractHits (r : QueryResponse) : Except String (List Hit) :=
  match r.data? with
  | none => .error "data"
  | some d =>
    match d.get? with
    | none => .error "Get"
    | some g =>
      match g.classes.lookup collection_name with
      | none => .error collection_name
      | some hits => .ok hits

/-- Line 149: the chained lookup of the certainty with default, reading the
`certainty` field out of the `additional` section and defaulting to `0` when
either the section or the field is missing. -/
def hitCertainty (h : Hit) : ℚ :=
  (h.additional?.bind AdditionalInfo.certainty?).getD 0

/-- Lines 146-150: the loop building `results_with_scores`; the subscript
lookup of the `chunk` key on line 147 raises a `KeyError` naming `chunk` when
the key is absent, aborting the whole loop. -/
def collectScores : List Hit → Except String (List Candidate)
  | [] => .ok []
  | h :: hs =>
    match h.chunk? with
    | none => .error "chunk"
    | some c => (collectScores hs).map (fun rest => (c, hitCertainty h) :: rest)

/-- Lines 145-150: the whole `try` block of `queries`, from the raw response to
`results_with_scores`, any `KeyError` carrying the offending key name. -/
def processResults (r : QueryResponse) : Except String (List Candidate) :=
  (extractHits r).bind collectScores

/-- Lines 138-159: `queries` as a function of the parsed store response and
`top_p`. A `KeyError` anywhere in the `try` block is caught on lines 151-153,
printed, and turned into an ordinary return of the fixed sentinel string;
otherwise the re-ranked context of lines 155-159 is returned. -/
def queriesFromResponse (r : QueryResponse) (top_p : ℕ) : String :=
  match processResults r with
  | .error _ => "Failed to process results due to key error."
  | .ok cs => rerank cs top_p

/-! ## Answerer (lines 163-180) and the interactive loop (lines 201-208) -/

/-- Lines 164-170: the prompt produced by `ChatPromptTemplate.from_template`
with `question` and `context` substituted. The backslash at the end of line
164 joins the first two source lines of the template. -/
def promptFor (question context : String) : String :=
  "You are an assistant for question-answering tasks. Use the following pieces of retrieved context to answer the question.          If you don\x27t know the answer, just say that you don\x27t know. Use three sentences maximum and keep the answer concise.\n    Question: " ++ question ++ "\n    Context: " ++ context ++ "\n    Answer:\n    "

/-- Lines 163-180: `answer_query` renders the template and invokes the chat
model (an external capability, modelled as an oracle from prompt to
completion). The `context` lambda on line 174 ignores the chain input, so the
`context` argument reaches the prompt verbatim. -/
def answer_query (llm : String → String) (query context : String) : String :=
  llm (promptFor query context)

/-- Lines 201-208: one iteration of the interactive loop on a non-quit query:
`context = queries(query, args.top_k, top_p=4)` followed by
`answer_query(query, context)`; the printed answer is returned. -/
def mainLoopAnswer (llm : String → String) (r : QueryResponse)
    (query : String) : String :=
  answer_query llm query (queriesFromResponse r 4)

/-! ## Embedder (lines 25-46) -/

/-- The parsed HTTP response of the embeddings POST on line 40: status code,
body text, and the optional `data` key of `response.json()`, each entry being
an embedding vector. -/
structure EmbedHttpResponse where
  status_code : ℕ
  text : String
  data? : Option (List (List ℚ))
deriving DecidableEq

/-- Lines 40-46: `embed_text`. On status 200 it returns the value of the
`data` key of the response JSON (an uncaught `KeyError`, modelled as
`Except.error`, when the `data` key is absent); on any other status it prints the failure with
the status code and body text and falls off the end, returning Python `None`,
modelled as `Except.ok none`. -/
def embed_text (r : EmbedHttpResponse) : Except String (Option (List (List ℚ))) :=
  if r.status_code = 200 then
    match r.data? with
    | some d => .ok (some d)
    | none => .error "data"
  else .ok none

/-! ## The vector store state and the Indexer (lines 70-118) -/

/-- One stored object as assembled on lines 110-113: the chunk text and its
`chunk_index`. -/
structure DataObject where
  chunk : String
  chunk_index : ℕ
deriving DecidableEq

/-- The observable schema/data state of the vector store: class name to the
stored objects of that class, in insertion order. -/
structure Store where
  classes : List (String × List DataObject)
deriving DecidableEq

/-- Line 103: `client.schema.exists(collection_name)`. -/
def schemaExists (s : Store) (name : String) : Bool :=
  (s.classes.lookup name).isSome

/-- Line 104: `client.schema.delete_class(collection_name)` removes the named
class and every object stored under it. -/
def deleteClass (s : Store) (name : String) : Store :=
  ⟨s.classes.filter (fun p => p.1 != name)⟩

/-- Line 105: `client.schema.create_class(chunk_class)` registers the named
class with an empty object list. -/
def createClass (s : Store) (name : String) : Store :=
  ⟨(name, []) :: s.classes⟩

/-- Appends an object to the first entry of the given class name, creating the
class when absent (the auto-schema behaviour of the client, never exercised by
`index`, which creates the class first). -/
def addObjectFirst :
    List (String × List DataObject) → String → DataObject →
      List (String × List DataObject)
  | [], name, o => [(name, [o])]
  | (n, objs) :: rest, name, o =>
    if n == name then (n, objs ++ [o]) :: rest
    else (n, objs) :: addObjectFirst rest name o

/-- Line 114: `batch.add_data_object(data_object=..., class_name=...)`. -/
def addDataObject (s : Store) (name : String) (o : DataObject) : Store :=
  ⟨addObjectFirst s.classes name o⟩

/-- Line 117: `client.query.aggregate(collection_name).with_meta_count()`, the
number of objects stored under the named class. -/
def aggregateCount (s : Store) (name : String) : ℕ :=
  ((s.classes.lookup name).getD []).length

/-- Lines 76-79: flattening `chunked_doc` (one chunk group per PDF page, as
produced by the splitter) into the `vector_store` list, order preserved. -/
def flattenGroups (gs : List (List String)) : List String := gs.flatten

/-- Line 107: the batch size passed to `client.batch.configure`. -/
def batchSize : ℕ := 100

/-- Python `enumerate` starting at `i`, as used on line 109. -/
def enumerateFrom (i : ℕ) : List String → List (ℕ × String)
  | [] => []
  | c :: cs => (i, c) :: enumerateFrom (i + 1) cs

/-- Lines 109-114: the data objects written by `index`, pairing each chunk
with its position in the flattened sequence as `chunk_index`. -/
def indexObjects (gs : List (List String)) : List DataObject :=
  (enumerateFrom 0 (flattenGroups gs)).map (fun p => ⟨p.2, p.1⟩)

/-- Fuel-indexed helper for `batchesOf`; the fuel is an upper bound on the
list length, so the catch-all `[l]` case is never reached from
`batchesOf`. -/
def batchesOfAux (n : ℕ) : ℕ → List DataObject → List (List DataObject)
  | _, [] => []
  | 0, x :: xs => [x :: xs]
  | fuel + 1, x :: xs => (x :: xs).take n :: batchesOfAux n fuel ((x :: xs).drop n)

/-- The flush groups of the client batch (external interface: batched object
insertion with a configurable batch size): the queued objects split into
consecutive groups of `n`. -/
def batchesOf (n : ℕ) (l : List DataObject) : List (List DataObject) :=
  batchesOfAux n l.length l

/-- Lines 103-118: `index`, as a function of the store state and the chunk
groups returned by the external PDF loader and text splitter. It deletes any
existing class of `collection_name`, creates it fresh, writes every object
through the batch, prints the aggregate count, and — having no `return`
statement — returns Python `None`: the second component is `none`. -/
def indexRun (s : Store) (gs : List (List String)) : Store × Option ℕ :=
  let s1 := if schemaExists s collection_name then deleteClass s collection_name else s
  let s2 := createClass s1 collection_name
  let s3 := (indexObjects gs).foldl (fun st o => addDataObject st collection_name o) s2
  (s3, none)

/-! ## Store operation traces (for the frame claim) -/

/-- The vector-store client calls the pipeline can make, one constructor per
client method used in `main.py`. -/
inductive StoreOp where
  | schemaExistsOp (name : String)
  | deleteClassOp (name : String)
  | createClassOp (name : String)
  | addObjectOp (name : String) (o : DataObject)
  | nearVectorOp (name : String) (props : List String) (limit : ℕ)
      (additional : List String)
  | aggregateOp (name : String)
deriving DecidableEq

/-- An operation is a write when it can change the schema or stored
objects: delete, create, or object insertion. -/
def StoreOp.isWrite : StoreOp → Bool
  | .deleteClassOp _ => true
  | .createClassOp _ => true
  | .addObjectOp _ _ => true
  | _ => false

/-- The effect of one operation on the store; the existence check, the
near-vector search and the aggregate count are reads and leave it
unchanged. -/
def applyOp (s : Store) : StoreOp → Store
  | .deleteClassOp n => deleteClass s n
  | .createClassOp n => createClass s n
  | .addObjectOp n o => addDataObject s n o
  | _ => s

/-- Runs a trace of operations against a store. -/
def runOps (s : Store) (ops : List StoreOp) : Store := ops.foldl applyOp s

/-- Lines 141-142: the only client call `queries` makes — one near-vector
search for the `chunk` property with limit `top_k` and the `certainty`
additional field. -/
def queriesOps (top_k : ℕ) : List StoreOp :=
  [.nearVectorOp collection_name ["chunk"] top_k ["certainty"]]

/-- Lines 163-180: `answer_query` makes no vector-store calls at all. -/
def answerQueryOps : List StoreOp := []

/-- Lines 103-117: the client calls `index` makes, in order: existence check,
conditional delete, create, one object insertion per chunk, aggregate
count. -/
def indexOps (s : Store) (gs : List (List String)) : List StoreOp :=
  [StoreOp.schemaExistsOp collection_name]
    ++ (if schemaExists s collection_name
        then [StoreOp.deleteClassOp collection_name] else [])
    ++ [StoreOp.createClassOp collection_name]
    ++ (indexObjects gs).map (fun o => StoreOp.addObjectOp collection_name o)
    ++ [StoreOp.aggregateOp collection_name]

/-! ## Lemmas about the re-ranker -/

/-- Inserting a candidate with `orderedInsert scoreGE` places it before every
equal-scored candidate already present, so filtering on any fixed score
commutes with the insertion, prepending the new candidate exactly when it has
that score. -/
theorem filter_orderedInsert (v : ℚ) (x : Candidate) (l : List Candidate) :
    (l.orderedInsert scoreGE x).filter (fun c => decide (c.2 = v)) =
      if x.2 = v then x :: l.filter (fun c => decide (c.2 = v))
      else l.filter (fun c => decide (c.2 = v)) := by
  induction l with
  | nil =>
    simp only [List.orderedInsert, List.filter]
    by_cases hx : x.2 = v <;> simp [hx]
  | cons y ys ih =>
    by_cases hxy : scoreGE x y
    · rw [List.orderedInsert, if_pos hxy]
      by_cases hx : x.2 = v <;> simp [List.filter_cons, hx]
    · rw [List.orderedInsert, if_neg hxy]
      have hyx : x.2 < y.2 := lt_of_not_le hxy
      by_cases hx : x.2 = v
      · have hy : ¬ y.2 = v := by
          rw [← hx]
          exact ne_of_gt hyx
        simp [List.filter_cons, hx, hy, ih]
      · simp [List.filter_cons, hx, ih]

/-- Stability of the sort on line 155: for each score value, the sorted list
restricted to the candidates of that score is the input list restricted to
them, in the same order. -/
theorem filter_sorted_results (v : ℚ) (cs : List Candidate) :
    (sorted_results cs).filter (fun c => decide (c.2 = v)) =
      cs.filter (fun c => decide (c.2 = v)) := by
  induction cs with
  | nil => rfl
  | cons x xs ih =>
    rw [sorted_results, List.insertionSort, filter_orderedInsert]
    by_cases hx : x.2 = v <;> simp [List.filter_cons, hx, ← ih, sorted_results]

/-- Taking `min n (length l)` elements is the same as taking `n`. -/
theorem take_min_length {α : Type} (l : List α) (n : ℕ) :
    l.take (min n l.length) = l.take n := by
  rcases le_total n l.length with h | h
  · rw [min_eq_left h]
  · rw [min_eq_right h, List.take_length, List.take_of_length_le h]

/-- Claim C1: for every candidate list and every `top_p > 0`, the re-ranking
step of lines 155-157 returns the first `min(top_p, len(candidates))`
candidates of a stable sort by score descending — the sorted list is a
permutation of the input, is sorted with scores descending, and candidates of
equal score keep their original retrieval order — with the selected texts
joined in that sorted order by the two-newline separator. -/
theorem rerank_is_stable_sort_take_join (cs : List Candidate) (p : ℕ)
    (_hp : 0 < p) :
    (sorted_results cs).Perm cs ∧
    List.Sorted scoreGE (sorted_results cs) ∧
    (∀ v : ℚ, (sorted_results cs).filter (fun c => decide (c.2 = v)) =
      cs.filter (fun c => decide (c.2 = v))) ∧
    rerank cs p =
      String.intercalate "\n\n"
        (((sorted_results cs).take (min p cs.length)).map Prod.fst) := by
  refine ⟨List.perm_insertionSort scoreGE cs,
    List.sorted_insertionSort scoreGE cs,
    fun v => filter_sorted_results v cs, ?_⟩
  rw [rerank]
  rw [show cs.length = (sorted_results cs).length from
    (List.length_insertionSort scoreGE cs).symm]
  rw [take_min_length]

/-- Witness for C1 at Scenario B: candidates x:0.7, y:0.95, z:0.95 with
`top_p = 2`; the tie at 0.95 keeps y before z. -/
theorem rerank_is_stable_sort_take_join_witness :
    0 < 2 ∧
    ((sorted_results [("x", mkRat 7 10), ("y", mkRat 19 20), ("z", mkRat 19 20)]).Perm
        [("x", mkRat 7 10), ("y", mkRat 19 20), ("z", mkRat 19 20)] ∧
      List.Sorted scoreGE
        (sorted_results [("x", mkRat 7 10), ("y", mkRat 19 20), ("z", mkRat 19 20)]) ∧
      (∀ v : ℚ,
        (sorted_results [("x", mkRat 7 10), ("y", mkRat 19 20), ("z", mkRat 19 20)]).filter
            (fun c => decide (c.2 = v)) =
          [("x", mkRat 7 10), ("y", mkRat 19 20), ("z", mkRat 19 20)].filter
            (fun c => decide (c.2 = v))) ∧
      rerank [("x", mkRat 7 10), ("y", mkRat 19 20), ("z", mkRat 19 20)] 2 =
        String.intercalate "\n\n"
          (((sorted_results
              [("x", mkRat 7 10), ("y", mkRat 19 20), ("z", mkRat 19 20)]).take
            (min 2 [("x", mkRat 7 10), ("y", mkRat 19 20), ("z", mkRat 19 20)].length)).map
            Prod.fst)) :=
  ⟨by decide,
    rerank_is_stable_sort_take_join
      [("x", mkRat 7 10), ("y", mkRat 19 20), ("z", mkRat 19 20)] 2 (by decide)⟩

/-- Scenario B of the spec, checked concretely: the tie at score 0.95 keeps
the original order of y and z, and `top_p = 2` selects them. -/
theorem scenarioB_rerank :
    rerank [("x", mkRat 7 10), ("y", mkRat 19 20), ("z", mkRat 19 20)] 2 =
      "y\n\nz" := by
  decide

/-- Claim C7: re-ranking is idempotent — for a candidate list already sorted
by score descending, re-ranking the selection a previous re-ranking with the
same `top_p` made (the first `top_p` candidates after sorting) yields the same
output string. -/
theorem rerank_idempotent (cs : List Candidate) (p : ℕ)
    (h : List.Sorted scoreGE cs) :
    rerank ((sorted_results cs).take p) p = rerank cs p := by
  have hcs : sorted_results cs = cs := h.insertionSort_eq
  have htake : List.Sorted scoreGE (cs.take p) :=
    h.sublist (List.take_sublist p cs)
  rw [hcs, rerank, rerank, show sorted_results (cs.take p) = cs.take p from
    htake.insertionSort_eq, hcs, List.take_take, min_self]

/-- Witness for C7 at a concrete sorted list and `top_p = 2`. -/
theorem rerank_idempotent_witness :
    List.Sorted scoreGE [("a", mkRat 9 10), ("b", mkRat 1 2), ("c", mkRat 1 2)] ∧
    rerank ((sorted_results
        [("a", mkRat 9 10), ("b", mkRat 1 2), ("c", mkRat 1 2)]).take 2) 2 =
      rerank [("a", mkRat 9 10), ("b", mkRat 1 2), ("c", mkRat 1 2)] 2 :=
  ⟨by decide,
    rerank_idempotent [("a", mkRat 9 10), ("b", mkRat 1 2), ("c", mkRat 1 2)] 2
      (by decide)⟩

/-- Claim C8: for every `top_p > 0`, re-ranking an empty candidate list
returns the empty string; being a total function of the list, it raises
nothing. -/
theorem rerank_nil_eq_empty (p : ℕ) (_hp : 0 < p) : rerank [] p = "" := by
  rw [rerank, show sorted_results [] = [] from rfl, List.take_nil, List.map_nil]
  rfl

/-- Witness for C8 at `top_p = 1`. -/
theorem rerank_nil_eq_empty_witness : 0 < 1 ∧ rerank [] 1 = "" :=
  ⟨by decide, rerank_nil_eq_empty 1 (by decide)⟩

/-! ## Lemmas about the retrieval result processing -/

/-- Claim C4: a retrieved hit lacking the certainty field gets score `0` and
is processed without raising — when every hit carries its chunk text, the
result loop succeeds, pairing each chunk with its certainty, and any hit whose
additional section or certainty field is missing contributes score `0`. -/
theorem missing_score_defaults_to_zero (hits : List Hit)
    (h : ∀ x ∈ hits, x.chunk?.isSome) :
    collectScores hits =
      .ok (hits.map (fun x => (x.chunk?.getD "", hitCertainty x))) ∧
    ∀ x : Hit, x.additional?.bind AdditionalInfo.certainty? = none →
      hitCertainty x = 0 := by
  constructor
  · induction hits with
    | nil => rfl
    | cons y ys ih =>
      obtain ⟨c, hc⟩ := Option.isSome_iff_exists.mp (h y (List.mem_cons_self y ys))
      rw [collectScores, hc,
        ih (fun x hx => h x (List.mem_cons_of_mem _ hx))]
      simp [hc, Except.map]
  · intro x hx
    rw [hitCertainty, hx]
    rfl

/-- Witness for C4: three hits, one with a certainty, one whose additional
section lacks the certainty field, one with no additional section at all; the
last two get score 0 and nothing fails. -/
theorem missing_score_defaults_to_zero_witness :
    (∀ x ∈ [Hit.mk (some "a") (some ⟨some (mkRat 1 2)⟩),
        Hit.mk (some "b") (some ⟨none⟩), Hit.mk (some "c") none],
      x.chunk?.isSome) ∧
    (collectScores [Hit.mk (some "a") (some ⟨some (mkRat 1 2)⟩),
        Hit.mk (some "b") (some ⟨none⟩), Hit.mk (some "c") none] =
      .ok ([Hit.mk (some "a") (some ⟨some (mkRat 1 2)⟩),
        Hit.mk (some "b") (some ⟨none⟩), Hit.mk (some "c") none].map
          (fun x => (x.chunk?.getD "", hitCertainty x))) ∧
    ∀ x : Hit, x.additional?.bind AdditionalInfo.certainty? = none →
      hitCertainty x = 0) :=
  ⟨by decide,
    missing_score_defaults_to_zero
      [Hit.mk (some "a") (some ⟨some (mkRat 1 2)⟩),
        Hit.mk (some "b") (some ⟨none⟩), Hit.mk (some "c") none] (by decide)⟩

/-- The envelope lookup of line 146 can only name the keys it accesses:
`data`, `Get`, or the collection name. -/
theorem extractHits_error_keys (r : QueryResponse) (k : String)
    (h : extractHits r = .error k) :
    k = "data" ∨ k = "Get" ∨ k = collection_name := by
  rw [extractHits] at h
  split at h
  · exact Or.inl (Except.error.inj h).symm
  · split at h
    · exact Or.inr (Or.inl (Except.error.inj h).symm)
    · split at h
      · exact Or.inr (Or.inr (Except.error.inj h).symm)
      · exact absurd h (by simp)

/-- The per-hit loop of lines 146-150 can only raise a `KeyError` for the
`chunk` key. -/
theorem collectScores_error_key (hits : List Hit) (k : String)
    (h : collectScores hits = .error k) : k = "chunk" := by
  induction hits with
  | nil => exact absurd h (by rw [collectScores]; simp)
  | cons y ys ih =>
    rw [collectScores] at h
    split at h
    · exact (Except.error.inj h).symm
    · cases hc : collectScores ys with
      | error e =>
        rw [hc] at h
        exact ih ((Except.error.inj h) ▸ hc)
      | ok cs =>
        rw [hc] at h
        simp [Except.map] at h

/-- Every `KeyError` the `try` block of `queries` can raise names one of the
four keys the block accesses. -/
theorem processResults_error_keys (r : QueryResponse) (k : String)
    (h : processResults r = .error k) :
    k = "data" ∨ k = "Get" ∨ k = collection_name ∨ k = "chunk" := by
  rw [processResults] at h
  cases he : extractHits r with
  | error e =>
    rw [he] at h
    replace h : (Except.error e : Except String (List Candidate)) =
      .error k := h
    rcases extractHits_error_keys r e he with h1 | h1 | h1 <;>
      rw [← Except.error.inj h, h1] <;> tauto
  | ok hits =>
    rw [he] at h
    replace h : collectScores hits = .error k := h
    exact Or.inr (Or.inr (Or.inr (collectScores_error_key hits k h)))

/-- Claim C2 counterexample: at the concrete malformed response whose data
section lacks the `Get` key, retrieval does not abort with an explicit error
outcome: `queries` returns the fixed sentinel as an ordinary string value and
the interactive loop hands exactly that value on as the context of
`answer_query` — a value silently passed on as a context string, which the
claim asserts cannot happen. -/
theorem queries_malformed_no_error_outcome :
    processResults ⟨some ⟨none⟩⟩ = .error "Get" ∧
    queriesFromResponse ⟨some ⟨none⟩⟩ 4 =
      "Failed to process results due to key error." ∧
    mainLoopAnswer (fun prompt => prompt) ⟨some ⟨none⟩⟩ "what is RAG" =
      promptFor "what is RAG" "Failed to process results due to key error." :=
  ⟨rfl, rfl, rfl⟩

/-- Claim C2 (amended): on a malformed response (a missing expected key), the
caught `KeyError` names the offending key — necessarily `data`, `Get`, the
collection name, or `chunk` — and `queries` returns the fixed sentinel string
`"Failed to process results due to key error."` as an ordinary return value
in place of any retrieved context; no error outcome is surfaced to the
caller. -/
theorem queries_malformed_returns_sentinel (r : QueryResponse) (p : ℕ)
    (k : String) (h : processResults r = .error k) :
    queriesFromResponse r p = "Failed to process results due to key error." ∧
    (k = "data" ∨ k = "Get" ∨ k = collection_name ∨ k = "chunk") := by
  refine ⟨?_, processResults_error_keys r k h⟩
  rw [queriesFromResponse, h]

/-- Witness for the amended C2 at a response lacking the `data` key. -/
theorem queries_malformed_returns_sentinel_witness :
    processResults ⟨none⟩ = .error "data" ∧
    (queriesFromResponse ⟨none⟩ 4 =
        "Failed to process results due to key error." ∧
      ("data" = "data" ∨ "data" = "Get" ∨ "data" = collection_name ∨
        "data" = "chunk")) :=
  ⟨rfl, queries_malformed_returns_sentinel ⟨none⟩ 4 "data" rfl⟩

/-- Claim C9: when processing the vector-store response raises a `KeyError`,
`queries` returns the fixed string as an ordinary return value, and the
interactive loop passes that string unchanged as the context argument of
`answer_query`, so the language model is invoked with the error message
embedded as its retrieved context. -/
theorem key_error_string_reaches_model (llm : String → String)
    (r : QueryResponse) (q k : String) (h : processResults r = .error k) :
    queriesFromResponse r 4 = "Failed to process results due to key error." ∧
    mainLoopAnswer llm r q =
      llm (promptFor q "Failed to process results due to key error.") := by
  have h1 : queriesFromResponse r 4 =
      "Failed to process results due to key error." := by
    rw [queriesFromResponse, h]
  exact ⟨h1, by rw [mainLoopAnswer, answer_query, h1]⟩

/-- Witness for C9: a response whose single hit has no `chunk` key; the model
oracle receives the prompt built around the sentinel context. -/
theorem key_error_string_reaches_model_witness :
    processResults ⟨some ⟨some ⟨[("Article", [⟨none, none⟩])]⟩⟩⟩ =
      .error "chunk" ∧
    (queriesFromResponse ⟨some ⟨some ⟨[("Article", [⟨none, none⟩])]⟩⟩⟩ 4 =
        "Failed to process results due to key error." ∧
      mainLoopAnswer (fun prompt => prompt)
          ⟨some ⟨some ⟨[("Article", [⟨none, none⟩])]⟩⟩⟩ "hello" =
        (fun prompt => prompt)
          (promptFor "hello" "Failed to process results due to key error.")) :=
  ⟨rfl,
    key_error_string_reaches_model (fun prompt => prompt)
      ⟨some ⟨some ⟨[("Article", [⟨none, none⟩])]⟩⟩⟩ "hello" "chunk" rfl⟩

/-! ## Lemmas about the embedder -/

/-- Claim C5 counterexample: at a concrete non-200 response, `embed_text` does
not fail with any error carrying the status and message — it prints the
failure and returns Python `None` (an ordinary return, `Except.ok none`); no
`EmbeddingFailure` outcome exists. -/
theorem embed_text_500_returns_none :
    embed_text ⟨500, "Internal Server Error", none⟩ = .ok none := rfl

/-- Claim C5 (amended): for every non-200 response, `embed_text` prints the
status code and message and returns `None` — no failure value is raised by
`embed_text` itself, and the caller never receives a zero vector (or any
vector) in place of the failed embedding: the returned value is `none`, never
`some` of a vector list. -/
theorem embed_text_non200_no_substitute (r : EmbedHttpResponse)
    (h : r.status_code ≠ 200) :
    embed_text r = .ok none ∧
    ∀ v : List (List ℚ), embed_text r ≠ .ok (some v) := by
  have h1 : embed_text r = .ok none := by rw [embed_text, if_neg h]
  refine ⟨h1, fun v hv => ?_⟩
  rw [h1] at hv
  simp at hv

/-- Witness for the amended C5 at a 404 response. -/
theorem embed_text_non200_no_substitute_witness :
    (404 : ℕ) ≠ 200 ∧
    (embed_text ⟨404, "Not Found", none⟩ = .ok none ∧
      ∀ v : List (List ℚ), embed_text ⟨404, "Not Found", none⟩ ≠ .ok (some v)) :=
  ⟨by decide, embed_text_non200_no_substitute ⟨404, "Not Found", none⟩ (by decide)⟩

/-! ## Lemmas about the Indexer and the store -/

/-- The texts of an enumerated list are the list itself, in order. -/
theorem enumerateFrom_map_snd (i : ℕ) (l : List String) :
    (enumerateFrom i l).map Prod.snd = l := by
  induction l generalizing i with
  | nil => rfl
  | cons c cs ih =>
    rw [enumerateFrom, List.map_cons, ih]

/-- The indices of an enumerated list count up from the start index. -/
theorem enumerateFrom_map_fst (i : ℕ) (l : List String) :
    (enumerateFrom i l).map Prod.fst = List.range' i l.length := by
  induction l generalizing i with
  | nil => rfl
  | cons c cs ih =>
    rw [enumerateFrom, List.map_cons, ih, List.length_cons, List.range'_succ]

/-- The objects `index` writes carry exactly the flattened chunk texts, in
the order the splitter produced them. -/
theorem indexObjects_map_chunk (gs : List (List String)) :
    (indexObjects gs).map DataObject.chunk = flattenGroups gs := by
  rw [indexObjects, List.map_map]
  exact enumerateFrom_map_snd 0 (flattenGroups gs)

/-- The `chunk_index` values `index` writes are the positions in the flattened
sequence: 0, 1, 2, ... in order. -/
theorem indexObjects_map_chunk_index (gs : List (List String)) :
    (indexObjects gs).map DataObject.chunk_index =
      List.range (flattenGroups gs).length := by
  rw [indexObjects, List.map_map, List.range_eq_range']
  exact enumerateFrom_map_fst 0 (flattenGroups gs)

/-- As many objects are written as there are chunks. -/
theorem indexObjects_length (gs : List (List String)) :
    (indexObjects gs).length = (flattenGroups gs).length := by
  have h := congrArg List.length (indexObjects_map_chunk gs)
  rwa [List.length_map] at h

/-- The batch of an empty queue is empty, whatever the fuel. -/
theorem batchesOfAux_nil (n fuel : ℕ) : batchesOfAux n fuel [] = [] := by
  cases fuel <;> rfl

/-- When the fuel bounds the queue length, dropping a positive batch size
keeps the bound one step of fuel lower. -/
theorem drop_length_le_fuel (n fuel : ℕ) (hn : 0 < n) (x : DataObject)
    (xs : List DataObject) (hl : (x :: xs).length ≤ fuel + 1) :
    ((x :: xs).drop n).length ≤ fuel := by
  rw [List.length_drop, List.length_cons]
  rw [List.length_cons] at hl
  omega

/-- Splitting into batches loses and reorders nothing: the flush groups
concatenate back to the queued object sequence. -/
theorem batchesOfAux_flatten (n : ℕ) (hn : 0 < n) :
    ∀ fuel (l : List DataObject), l.length ≤ fuel →
      (batchesOfAux n fuel l).flatten = l := by
  intro fuel
  induction fuel with
  | zero =>
    intro l hl
    rw [List.eq_nil_of_length_eq_zero (Nat.le_zero.mp hl), batchesOfAux_nil]
    rfl
  | succ fuel ih =>
    intro l hl
    cases l with
    | nil => rw [batchesOfAux_nil]; rfl
    | cons x xs =>
      rw [batchesOfAux, List.flatten_cons,
        ih ((x :: xs).drop n) (drop_length_le_fuel n fuel hn x xs hl),
        List.take_append_drop]

/-- No flush group exceeds the configured batch size. -/
theorem batchesOfAux_length_le (n : ℕ) (hn : 0 < n) :
    ∀ fuel (l : List DataObject), l.length ≤ fuel →
      ∀ b ∈ batchesOfAux n fuel l, b.length ≤ n := by
  intro fuel
  induction fuel with
  | zero =>
    intro l hl b hb
    rw [List.eq_nil_of_length_eq_zero (Nat.le_zero.mp hl), batchesOfAux_nil]
      at hb
    cases hb
  | succ fuel ih =>
    intro l hl b hb
    cases l with
    | nil => rw [batchesOfAux_nil] at hb; cases hb
    | cons x xs =>
      rw [batchesOfAux] at hb
      rcases List.mem_cons.mp hb with rfl | hb
      · rw [List.length_take]
        exact min_le_left n _
      · exact ih _ (drop_length_le_fuel n fuel hn x xs hl) b hb

/-- Every flush group except possibly the last is full: it holds exactly the
configured batch size of objects. -/
theorem batchesOfAux_dropLast_length (n : ℕ) (hn : 0 < n) :
    ∀ fuel (l : List DataObject), l.length ≤ fuel →
      ∀ b ∈ (batchesOfAux n fuel l).dropLast, b.length = n := by
  intro fuel
  induction fuel with
  | zero =>
    intro l hl b hb
    rw [List.eq_nil_of_length_eq_zero (Nat.le_zero.mp hl), batchesOfAux_nil]
      at hb
    cases hb
  | succ fuel ih =>
    intro l hl b hb
    cases l with
    | nil => rw [batchesOfAux_nil] at hb; cases hb
    | cons x xs =>
      rw [batchesOfAux] at hb
      cases hrest : batchesOfAux n fuel ((x :: xs).drop n) with
      | nil =>
        rw [hrest] at hb
        cases hb
      | cons r rs =>
        rw [hrest, List.dropLast_cons₂] at hb
        rcases List.mem_cons.mp hb with rfl | hb
        · rw [List.length_take]
          refine min_eq_left ?_
          by_contra hlt
          push_neg at hlt
          have hdrop : (x :: xs).drop n = [] :=
            List.drop_eq_nil_of_le (le_of_lt hlt)
          rw [hdrop, batchesOfAux_nil] at hrest
          cases hrest
        · refine ih _ (drop_length_le_fuel n fuel hn x xs hl) b ?_
          rw [hrest]
          exact hb

/-- The flush groups concatenate back to the whole object sequence. -/
theorem batchesOf_flatten (n : ℕ) (hn : 0 < n) (l : List DataObject) :
    (batchesOf n l).flatten = l :=
  batchesOfAux_flatten n hn l.length l le_rfl

/-- No flush group exceeds the configured batch size. -/
theorem batchesOf_length_le (n : ℕ) (hn : 0 < n) (l : List DataObject) :
    ∀ b ∈ batchesOf n l, b.length ≤ n :=
  batchesOfAux_length_le n hn l.length l le_rfl

/-- Every flush group except possibly the last is exactly full. -/
theorem batchesOf_dropLast_length (n : ℕ) (hn : 0 < n) (l : List DataObject) :
    ∀ b ∈ (batchesOf n l).dropLast, b.length = n :=
  batchesOfAux_dropLast_length n hn l.length l le_rfl

/-- Folding the per-object batch insertions over a store whose first entry is
the target class appends all objects to that class, in order. -/
theorem foldl_addDataObject (objs : List DataObject) (acc : List DataObject)
    (rest : List (String × List DataObject)) :
    objs.foldl (fun st o => addDataObject st collection_name o)
        ⟨(collection_name, acc) :: rest⟩ =
      ⟨(collection_name, acc ++ objs) :: rest⟩ := by
  induction objs generalizing acc with
  | nil => rw [List.foldl_nil, List.append_nil]
  | cons o os ih =>
    rw [List.foldl_cons]
    rw [show addDataObject ⟨(collection_name, acc) :: rest⟩ collection_name o =
        ⟨(collection_name, acc ++ [o]) :: rest⟩ from by
      rw [addDataObject, addObjectFirst]
      simp]
    rw [ih, List.append_assoc]
    rfl

/-- After any run of `index` the class of `collection_name` holds exactly that
objects of that run: whatever was stored before was deleted and the class was
recreated before the writes. -/
theorem indexRun_lookup (s : Store) (gs : List (List String)) :
    (indexRun s gs).1.classes.lookup collection_name =
      some (indexObjects gs) := by
  rw [indexRun]
  by_cases h : schemaExists s collection_name <;>
    simp only [h, if_pos, if_neg, createClass] <;>
    rw [show (⟨(collection_name, []) :: _⟩ : Store) =
      (⟨(collection_name, ([] : List DataObject)) :: _⟩ : Store) from rfl] <;>
    rw [foldl_addDataObject] <;>
    simp [List.lookup]

/-- The aggregate count `index` prints equals the number of chunks written in
that run. -/
theorem indexRun_aggregate (s : Store) (gs : List (List String)) :
    aggregateCount (indexRun s gs).1 collection_name =
      (flattenGroups gs).length := by
  rw [aggregateCount, indexRun_lookup, Option.getD_some, indexObjects_length]

/-- Claim C3: indexing first deletes any existing class of the collection
name and creates it fresh, so after indexing a first document and then a
second one under the same name, the collection holds exactly the objects of
the second run — the aggregate count equals only the chunk count of the
second document,
a full replace and never a merge. Stated for every starting store state, so in
particular for the state left by the first run. -/
theorem index_twice_full_replace (s : Store) (gs1 gs2 : List (List String)) :
    ((indexRun (indexRun s gs1).1 gs2).1).classes.lookup collection_name =
      some (indexObjects gs2) ∧
    aggregateCount (indexRun (indexRun s gs1).1 gs2).1 collection_name =
      (flattenGroups gs2).length :=
  ⟨indexRun_lookup (indexRun s gs1).1 gs2,
    indexRun_aggregate (indexRun s gs1).1 gs2⟩

/-- Claim C6 counterexample: `index` does not return the total count of
chunks written — it has no `return` statement, so its value is Python `None`.
At a concrete two-chunk document the claim would require the return value 2,
but the return value is `none`; the count 2 appears only in the printed
aggregate query. -/
theorem index_returns_none_not_count :
    (indexRun ⟨[]⟩ [["a", "b"]]).2 = none ∧
    (indexRun ⟨[]⟩ [["a", "b"]]).2 ≠ some 2 ∧
    aggregateCount (indexRun ⟨[]⟩ [["a", "b"]]).1 collection_name = 2 := by
  refine ⟨rfl, ?_, by decide⟩
  intro h
  cases h

/-- Claim C6 (amended): indexing queues the chunks on a batch configured with
fixed size 100 — the flush groups all have at most 100 objects, every group
but the last exactly 100, and they concatenate back to the full write
sequence — assigning the `chunk_index` of each chunk as its position in the
flattened sequence across all chunk groups in splitter order; the total count
written is observable through the printed aggregate count, but the function
itself returns `None`, not the count. -/
theorem index_batches_and_order (s : Store) (gs : List (List String)) :
    batchSize = 100 ∧
    (indexObjects gs).map DataObject.chunk = flattenGroups gs ∧
    (indexObjects gs).map DataObject.chunk_index =
      List.range (flattenGroups gs).length ∧
    (batchesOf batchSize (indexObjects gs)).flatten = indexObjects gs ∧
    (∀ b ∈ batchesOf batchSize (indexObjects gs), b.length ≤ batchSize) ∧
    (∀ b ∈ (batchesOf batchSize (indexObjects gs)).dropLast,
      b.length = batchSize) ∧
    (indexRun s gs).1.classes.lookup collection_name =
      some (indexObjects gs) ∧
    aggregateCount (indexRun s gs).1 collection_name =
      (flattenGroups gs).length ∧
    (indexRun s gs).2 = none :=
  ⟨rfl, indexObjects_map_chunk gs, indexObjects_map_chunk_index gs,
    batchesOf_flatten batchSize (by decide) _,
    batchesOf_length_le batchSize (by decide) _,
    batchesOf_dropLast_length batchSize (by decide) _,
    indexRun_lookup s gs, indexRun_aggregate s gs, rfl⟩

/-- Witness for the amended C6 at a concrete store and two chunk groups. -/
theorem index_batches_and_order_witness :
    batchSize = 100 ∧
    (indexObjects [["a", "b"], ["c"]]).map DataObject.chunk =
      flattenGroups [["a", "b"], ["c"]] ∧
    (indexObjects [["a", "b"], ["c"]]).map DataObject.chunk_index =
      List.range (flattenGroups [["a", "b"], ["c"]]).length ∧
    (batchesOf batchSize (indexObjects [["a", "b"], ["c"]])).flatten =
      indexObjects [["a", "b"], ["c"]] ∧
    (∀ b ∈ batchesOf batchSize (indexObjects [["a", "b"], ["c"]]),
      b.length ≤ batchSize) ∧
    (∀ b ∈ (batchesOf batchSize (indexObjects [["a", "b"], ["c"]])).dropLast,
      b.length = batchSize) ∧
    (indexRun ⟨[("Article", [⟨"old", 0⟩])]⟩ [["a", "b"], ["c"]]).1.classes.lookup
        collection_name = some (indexObjects [["a", "b"], ["c"]]) ∧
    aggregateCount (indexRun ⟨[("Article", [⟨"old", 0⟩])]⟩
        [["a", "b"], ["c"]]).1 collection_name =
      (flattenGroups [["a", "b"], ["c"]]).length ∧
    (indexRun ⟨[("Article", [⟨"old", 0⟩])]⟩ [["a", "b"], ["c"]]).2 = none :=
  index_batches_and_order ⟨[("Article", [⟨"old", 0⟩])]⟩ [["a", "b"], ["c"]]

/-! ## The frame claim -/

/-- Claim C10: the per-query path is read-only with respect to the vector
store. The only client call `queries` makes is the near-vector search, which
is not a write and leaves any store state — schema and stored chunks —
unchanged; `answer_query` makes no store calls at all. The delete, create and
object-insertion writes all live in the trace of `index`, whose effect is exactly
the `indexRun` state change. -/
theorem query_path_read_only (s : Store) (top_k : ℕ)
    (gs : List (List String)) :
    runOps s (queriesOps top_k) = s ∧
    (∀ op ∈ queriesOps top_k, op.isWrite = false) ∧
    answerQueryOps = [] ∧
    runOps s answerQueryOps = s ∧
    runOps s (indexOps s gs) = (indexRun s gs).1 := by
  refine ⟨rfl, ?_, rfl, rfl, ?_⟩
  · intro op hop
    rw [queriesOps, List.mem_singleton] at hop
    rw [hop]
    rfl
  · rw [runOps, indexOps, indexRun]
    by_cases h : schemaExists s collection_name <;>
      simp [h, applyOp, List.foldl_map, addDataObject]

/-- Witness for C10 at a concrete store, `top_k = 5` and one chunk group. -/
theorem query_path_read_only_witness :
    runOps ⟨[("Article", [⟨"t", 0⟩])]⟩ (queriesOps 5) =
      ⟨[("Article", [⟨"t", 0⟩])]⟩ ∧
    (∀ op ∈ queriesOps 5, op.isWrite = false) ∧
    answerQueryOps = [] ∧
    runOps ⟨[("Article", [⟨"t", 0⟩])]⟩ answerQueryOps =
      ⟨[("Article", [⟨"t", 0⟩])]⟩ ∧
    runOps ⟨[("Article", [⟨"t", 0⟩])]⟩
        (indexOps ⟨[("Article", [⟨"t", 0⟩])]⟩ [["x"]]) =
      (indexRun ⟨[("Article", [⟨"t", 0⟩])]⟩ [["x"]]).1 :=
  query_path_read_only ⟨[("Article", [⟨"t", 0⟩])]⟩ 5 [["x"]]

end JustRAGit
